import Mathlib

/-!
# Verification of the proposal voting and resolution engine

Shallow embedding of `VoteActionService` (vote ingestion pipeline, resolution
policy, vote upsert, outbound vote composer) together with its immediate data
model, and proofs of the specified properties.

Numbers: voter counts are `Nat`; weights and the weight-ratio arithmetic are
modelled over `ℚ` (exact arithmetic; the JavaScript source uses IEEE doubles,
but every claim below concerns the exact comparison structure of the
formulas, where `ℚ` and the informal spec coincide; note that in `ℚ` a
division by zero yields `0`, which like JavaScript's `NaN > 0.5 = false`
makes a zero-weight denominator fail the strict-majority test).
-/

/-- `mpaction` payload of a vote message: voter address, target proposal hash,
chosen option id (`VoteMessage`). -/
structure VoteMessage where
  voter : String
  proposalHash : String
  optionId : Nat
deriving DecidableEq, Repr

/-- Transport-level metadata of an inbound smsg message: sender address
(`smsgMessage.from`; `from` is a Lean keyword, hence `sender`) and the
retention hint in days (`smsgMessage.daysretention`). -/
structure SmsgMessage where
  sender : String
  daysretention : Int
deriving DecidableEq, Repr

/-- The marketplace envelope of an inbound event; `mpaction` is absent when the
message carried no action payload. -/
structure MarketplaceMessage where
  mpaction : Option VoteMessage
deriving DecidableEq, Repr

/-- An inbound `VoteReceivedEvent`. -/
structure MarketplaceEvent where
  marketplaceMessage : MarketplaceMessage
  smsgMessage : SmsgMessage
deriving DecidableEq, Repr

/-- Proposal type tag (`ProposalType`); only the two tags the engine
distinguishes. -/
inductive ProposalType where
  | ITEM_VOTE
  | PUBLIC_VOTE
deriving DecidableEq, BEq, Repr

/-- Per-option entry of a `ProposalResult` snapshot
(`ProposalOptionResult` with its `ProposalOption.optionId` inlined):
distinct-voter count and aggregated weight for one option. -/
structure ProposalOptionResult where
  optionId : Nat
  voters : Nat
  weight : ℚ
deriving DecidableEq, Repr

/-- A point-in-time tally snapshot (`ProposalResult`): one
`ProposalOptionResult` per option that the tally produced. -/
structure ProposalResult where
  proposalOptionResults : List ProposalOptionResult
deriving DecidableEq, Repr

/-- The flagged target of an item-removal proposal (`FlaggedItem`). -/
structure FlaggedItem where
  listingItemId : Nat
deriving DecidableEq, Repr

/-- A stored proposal (`resources.Proposal`): db id, hash, type, attached
result snapshots, optional flagged listing, expiry timestamp (ms). -/
structure Proposal where
  id : Nat
  hash : String
  ptype : ProposalType
  proposalResults : List ProposalResult
  flaggedItem : Option FlaggedItem
  expiredAt : Int
deriving DecidableEq, Repr

/-- A Vote Ledger row (`resources.Vote`): db id plus the (voter, proposal)
upsert key, chosen option and snapshotted weight. -/
structure VoteRow where
  id : Nat
  voter : String
  proposalId : Nat
  optionId : Nat
  weight : ℚ
deriving DecidableEq, Repr

/-- Message processing statuses used by this pipeline (the
`SmsgMessageStatus` constants it mentions). -/
inductive SmsgMessageStatus where
  | PROCESSED
  | WAITING
  | PARSING_FAILED
deriving DecidableEq, BEq, Repr

/-- The locally persisted state the pipeline reads and writes: the Proposal
Store, the set of locally controlled profile addresses, the Vote Ledger, and
the ids of listings currently present. -/
structure MarketState where
  proposals : List Proposal
  profiles : List String
  ledger : List VoteRow
  listings : List Nat
deriving DecidableEq, Repr

/-- External collaborators and configuration of the pipeline: the Weight
Oracle (`voteService.getVoteWeight`), the Vote Tally Engine
(`proposalService.recalculateProposalResult`, abstract here — no claim
depends on its internals), fault-injection flags for the fallible
persistence calls, and the quorum floor
(`process.env.MINIMUM_REQUIRED_VOTES || 1000`). -/
structure Env where
  getVoteWeight : String → ℚ
  recalculate : Proposal → List VoteRow → ProposalResult
  upsertFails : Bool
  recomputeFails : Bool
  minimumRequiredVotes : Nat

/-- `shouldRemoveListingItem` (resolution policy): find the option results for
`optionId 0` (keep) and `optionId 1` (remove); fire iff both exist, the total
voter count strictly exceeds the quorum floor, and remove's weight share is
strictly above one half. -/
def shouldRemoveListingItem (minimumRequiredVotes : Nat) (proposalResult : ProposalResult) : Bool :=
  let okOptionResult := proposalResult.proposalOptionResults.find? (fun r => r.optionId == 0)
  let removeOptionResult := proposalResult.proposalOptionResults.find? (fun r => r.optionId == 1)
  match removeOptionResult, okOptionResult with
  | some remove, some ok =>
      let totalNumVoters := ok.voters + remove.voters
      decide (totalNumVoters > minimumRequiredVotes)
        && decide (remove.weight / (remove.weight + ok.weight) > (1 : ℚ) / 2)
  | _, _ => false

/-! ## Vote Ledger and `createOrUpdateVote` -/

/-- `voteService.findOneByVoterAndProposalId`: look up the Vote row keyed by
(voter, proposal). -/
def findOneByVoterAndProposalId (ledger : List VoteRow) (voter : String) (proposalId : Nat) :
    Option VoteRow :=
  ledger.find? (fun r => decide (r.voter = voter ∧ r.proposalId = proposalId))

/-- A row id strictly above every id in the ledger, standing for the database
primary key assigned on insert. -/
def freshId (ledger : List VoteRow) : Nat :=
  ledger.foldr (fun r acc => max (r.id + 1) acc) 0

/-- Modelled from the spec: `voteService.create` (Vote Ledger durable store,
§2; the service's own code is not part of the analysed sources) inserts one
new row. -/
def voteLedgerCreate (ledger : List VoteRow) (row : VoteRow) : List VoteRow :=
  ledger ++ [row]

/-- Modelled from the spec: `voteService.update` (Vote Ledger durable store,
§2) overwrites the fields of the row with the given id in place. -/
def voteLedgerUpdate (ledger : List VoteRow) (rowId : Nat) (voter : String)
    (proposalId optionId : Nat) (weight : ℚ) : List VoteRow :=
  ledger.map (fun r => if r.id = rowId then ⟨r.id, voter, proposalId, optionId, weight⟩ else r)

/-- `createOrUpdateVote`: look the (voter, proposal) row up; create it when
absent, otherwise update the found row by its id. The vote request fields
(voter, proposal id, chosen option, resolved weight) follow
`voteFactory.getModel`, modelled from the spec (§3 Vote attributes; the
factory's own code is not part of the analysed sources). -/
def createOrUpdateVote (ledger : List VoteRow) (voteMessage : VoteMessage)
    (proposal : Proposal) (weight : ℚ) : List VoteRow :=
  match findOneByVoterAndProposalId ledger voteMessage.voter proposal.id with
  | none =>
      voteLedgerCreate ledger
        ⟨freshId ledger, voteMessage.voter, proposal.id, voteMessage.optionId, weight⟩
  | some lastVote =>
      voteLedgerUpdate ledger lastVote.id voteMessage.voter proposal.id
        voteMessage.optionId weight

/-- Number of ledger rows keyed by a given (voter, proposal) pair. -/
def keyCount (ledger : List VoteRow) (voter : String) (proposalId : Nat) : Nat :=
  ledger.countP (fun r => decide (r.voter = voter ∧ r.proposalId = proposalId))

/-- The Vote Ledger invariant: at most one row per (voter, proposal) pair. -/
def atMostOnePerKey (ledger : List VoteRow) : Prop :=
  ∀ voter proposalId, keyCount ledger voter proposalId ≤ 1

/-- The row ids of a ledger. -/
def ledgerIds (ledger : List VoteRow) : List Nat :=
  ledger.map (fun r => r.id)

/-! ## Vote Ingestion Pipeline (`processVoteReceivedEvent`) -/

/-- `proposalService.findOneByHash`: look a proposal up by hash; an absent
hash makes the service call reject, which the pipeline's final `catch`
converts to WAITING, so `none` suffices here. -/
def findOneByHash (proposals : List Proposal) (hash : String) : Option Proposal :=
  proposals.find? (fun p => decide (p.hash = hash))

/-- Persist a freshly recomputed `ProposalResult` snapshot onto its proposal
(the write performed inside `proposalService.recalculateProposalResult`). -/
def persistProposalResult (st : MarketState) (proposal : Proposal)
    (pr : ProposalResult) : MarketState :=
  { st with
    proposals := st.proposals.map (fun p =>
      if p.hash = proposal.hash
      then { p with proposalResults := p.proposalResults ++ [pr] }
      else p) }

/-- `listingItemService.destroy`: remove a listing by id. -/
def destroyListing (st : MarketState) (listingItemId : Nat) : MarketState :=
  { st with listings := st.listings.filter (fun l => decide (l ≠ listingItemId)) }

/-- The body of the `.then` handler of `processVoteReceivedEvent` (lines
116–184): everything that runs once the proposal was found. The first
component is the status the handler resolves with, or the error its inner
`throw`/rejection raises; the second is the state reached at that point
(a failure after the upsert does not undo the upsert). -/
def processKnownProposal (env : Env) (st : MarketState) (event : MarketplaceEvent)
    (voteMessage : VoteMessage) (proposal : Proposal) :
    Except String SmsgMessageStatus × MarketState :=
  let weAreTheVoter := st.profiles.any (fun address => address == voteMessage.voter)
  if weAreTheVoter then
    -- 'This vote should have already been created locally. Skipping.'
    (.ok .PROCESSED, st)
  else
    if proposal.proposalResults.isEmpty then
      (.error "ProposalResult should not be empty!", st)
    else
      if event.smsgMessage.daysretention ≥ 1 then
        let weight := env.getVoteWeight voteMessage.voter
        if weight > 0 then
          if env.upsertFails then
            (.error "Vote was not saved or updated properly. Return val is empty.", st)
          else
            let st1 := { st with ledger := createOrUpdateVote st.ledger voteMessage proposal weight }
            if env.recomputeFails then
              (.error "recalculateProposalResult rejected", st1)
            else
              let proposalResult := env.recalculate proposal st1.ledger
              let st2 := persistProposalResult st1 proposal proposalResult
              if proposal.ptype == ProposalType.ITEM_VOTE
                  && shouldRemoveListingItem env.minimumRequiredVotes proposalResult then
                match proposal.flaggedItem with
                | none =>
                    -- accessing proposal.FlaggedItem.listingItemId raises a TypeError
                    (.error "Cannot read listingItemId of undefined", st2)
                | some flaggedItem =>
                    let listingItemId : Option Nat :=
                      if st2.listings.contains flaggedItem.listingItemId
                      then some flaggedItem.listingItemId
                      else none  -- findOne rejected; .catch(() => null)
                    match listingItemId with
                    | some lid =>
                        if lid ≠ 0 then (.ok .PROCESSED, destroyListing st2 lid)
                        else (.ok .PROCESSED, st2)
                    | none => (.ok .PROCESSED, st2)
              else
                -- 'No item destroyed.'
                (.ok .PROCESSED, st2)
        else
          -- weightless vote: ignored, falls through to PROCESSED
          (.ok .PROCESSED, st)
      else
        (.error "Missing VoteMessage", st)

/-- `processVoteReceivedEvent`: structural validation and sender check throw
(rejecting the returned promise); then the proposal lookup and the
`processKnownProposal` body run inside a promise chain whose final `catch`
maps any rejection to WAITING. -/
def processVoteReceivedEvent (env : Env) (st : MarketState) (event : MarketplaceEvent) :
    Except String (SmsgMessageStatus × MarketState) :=
  match event.marketplaceMessage.mpaction with
  | none => .error "Missing mpaction."
  | some voteMessage =>
    if voteMessage.voter ≠ event.smsgMessage.sender then
      .error "Voter does not match with sender."
    else
      match findOneByHash st.proposals voteMessage.proposalHash with
      | none => .ok (.WAITING, st)
      | some proposal =>
        match processKnownProposal env st event voteMessage proposal with
        | (.ok status, st1) => .ok (status, st1)
        | (.error _, st1) => .ok (.WAITING, st1)

/-- The `VoteReceivedEvent` listener installed by `configureEventListeners`:
it persists the resolved status back onto the message record, and converts a
rejection of `processVoteReceivedEvent` itself into PARSING_FAILED. The
first component is the status written back. -/
def handleVoteReceivedEvent (env : Env) (st : MarketState) (event : MarketplaceEvent) :
    SmsgMessageStatus × MarketState :=
  match processVoteReceivedEvent env st event with
  | .ok (status, st1) => (status, st1)
  | .error _ => (.PARSING_FAILED, st)

/-! ## Outbound Vote Composer (`send`) and concrete fixtures -/

/-- A proposal option (`resources.ProposalOption`), as passed to `send`. -/
structure ProposalOption where
  optionId : Nat
deriving DecidableEq, Repr

/-- The argument tuple of the one `smsgService.smsgSend` call `send` makes:
sender address, marketplace channel address, the composed vote message,
the paid-message flag (always `false` here), and the retention window in
days. -/
structure SmsgSendCall where
  fromAddress : String
  toAddress : String
  voteMessage : VoteMessage
  paidMessage : Bool
  daysRetention : Int
deriving DecidableEq, Repr

/-- `send` (outbound vote composer): compose the vote message (voter identity,
proposal hash, chosen option — the fields `voteFactory.getMessage` assembles,
modelled from the spec §4.4 as the factory's code is not among the analysed
sources) and dispatch it with
`Math.ceil((proposal.expiredAt - now) / 1000 / 60 / 60 / 24)` days of
retention. It threads the state through untouched: the method makes no Vote
Ledger call. -/
def send (proposal : Proposal) (proposalOption : ProposalOption)
    (senderAddress marketAddress : String) (st : MarketState) (now : Int) :
    SmsgSendCall × MarketState :=
  let voteMessage : VoteMessage := ⟨senderAddress, proposal.hash, proposalOption.optionId⟩
  (⟨senderAddress, marketAddress, voteMessage, false,
      Int.ceil ((proposal.expiredAt - now : ℚ) / 1000 / 60 / 60 / 24)⟩, st)

/-- Fixture: an item-removal proposal with one (empty) result snapshot. -/
def exampleProposal : Proposal :=
  ⟨1, "h1", ProposalType.ITEM_VOTE, [⟨[]⟩], none, 0⟩

/-- Fixture: a store holding `exampleProposal`, one local profile, an empty
Vote Ledger and no listings. -/
def exampleState : MarketState :=
  ⟨[exampleProposal], ["local1"], [], []⟩

/-- Fixture: a well-formed inbound vote event from the non-local voter
"alice" with 7 days of retention. -/
def exampleVoteEvent : MarketplaceEvent :=
  ⟨⟨some ⟨"alice", "h1", 1⟩⟩, ⟨"alice", 7⟩⟩

/-- Fixture: the same vote event with 0 days of retention. -/
def lowRetentionEvent : MarketplaceEvent :=
  ⟨⟨some ⟨"alice", "h1", 1⟩⟩, ⟨"alice", 0⟩⟩

/-- Fixture: collaborators that all succeed; every voter weighs 1. -/
def okEnv : Env :=
  ⟨fun _ => 1, fun _ _ => ⟨[]⟩, false, false, 1000⟩

/-- Fixture: collaborators whose Vote upsert rejects. -/
def failingUpsertEnv : Env :=
  ⟨fun _ => 1, fun _ _ => ⟨[]⟩, true, false, 1000⟩

/-! ## Theorems -/

/-- C1: with both option results present, `shouldRemoveListingItem` is true iff
the total voter count strictly exceeds the quorum floor and remove's weight
share strictly exceeds one half; at exactly the quorum floor it is false. -/
theorem shouldRemoveListingItem_iff_quorum_and_majority
    (minVotes : Nat) (pr : ProposalResult) (keep remove : ProposalOptionResult)
    (hk : pr.proposalOptionResults.find? (fun r => r.optionId == 0) = some keep)
    (hr : pr.proposalOptionResults.find? (fun r => r.optionId == 1) = some remove) :
    (shouldRemoveListingItem minVotes pr = true ↔
      keep.voters + remove.voters > minVotes ∧
        remove.weight / (remove.weight + keep.weight) > (1 : ℚ) / 2) ∧
    (keep.voters + remove.voters = minVotes → shouldRemoveListingItem minVotes pr = false) := by
  constructor
  · simp [shouldRemoveListingItem, hk, hr]
  · intro htot
    simp [shouldRemoveListingItem, hk, hr, htot]

/-- Witness for C1 at a concrete snapshot. -/
theorem shouldRemoveListingItem_iff_quorum_and_majority_witness :
    (ProposalResult.mk [⟨0, 600, 10⟩, ⟨1, 500, 30⟩]).proposalOptionResults.find?
        (fun r => r.optionId == 0) = some ⟨0, 600, 10⟩ ∧
    (ProposalResult.mk [⟨0, 600, 10⟩, ⟨1, 500, 30⟩]).proposalOptionResults.find?
        (fun r => r.optionId == 1) = some ⟨1, 500, 30⟩ ∧
    ((shouldRemoveListingItem 1000 (ProposalResult.mk [⟨0, 600, 10⟩, ⟨1, 500, 30⟩]) = true ↔
      600 + 500 > 1000 ∧ (30 : ℚ) / (30 + 10) > (1 : ℚ) / 2) ∧
      (600 + 500 = 1000 →
        shouldRemoveListingItem 1000 (ProposalResult.mk [⟨0, 600, 10⟩, ⟨1, 500, 30⟩]) = false)) :=
  ⟨by decide, by decide,
    shouldRemoveListingItem_iff_quorum_and_majority 1000 _ ⟨0, 600, 10⟩ ⟨1, 500, 30⟩
      (by decide) (by decide)⟩

/-- C6: a weight tie between keep and remove (including both zero) never fires
removal, whatever the voter counts. -/
theorem shouldRemoveListingItem_tie_never_fires
    (minVotes : Nat) (pr : ProposalResult) (keep remove : ProposalOptionResult)
    (hk : pr.proposalOptionResults.find? (fun r => r.optionId == 0) = some keep)
    (hr : pr.proposalOptionResults.find? (fun r => r.optionId == 1) = some remove)
    (htie : remove.weight = keep.weight) :
    shouldRemoveListingItem minVotes pr = false := by
  simp only [shouldRemoveListingItem, hk, hr]
  have hshare : ¬ (remove.weight / (remove.weight + keep.weight) > (1 : ℚ) / 2) := by
    rcases eq_or_ne keep.weight 0 with h0 | h0
    · simp [htie, h0]
    · rw [htie]
      have : keep.weight + keep.weight = 2 * keep.weight := by ring
      rw [this, mul_comm, ← div_div, div_self h0]
      norm_num
  have hd : decide (remove.weight / (remove.weight + keep.weight) > (1 : ℚ) / 2) = false := by
    simpa using hshare
  rw [hd, Bool.and_false]

/-- Witness for C6 at a concrete tied snapshot. -/
theorem shouldRemoveListingItem_tie_never_fires_witness :
    (ProposalResult.mk [⟨0, 700, 5⟩, ⟨1, 800, 5⟩]).proposalOptionResults.find?
        (fun r => r.optionId == 0) = some ⟨0, 700, 5⟩ ∧
    (ProposalResult.mk [⟨0, 700, 5⟩, ⟨1, 800, 5⟩]).proposalOptionResults.find?
        (fun r => r.optionId == 1) = some ⟨1, 800, 5⟩ ∧
    (5 : ℚ) = 5 ∧
    shouldRemoveListingItem 1000 (ProposalResult.mk [⟨0, 700, 5⟩, ⟨1, 800, 5⟩]) = false :=
  ⟨by decide, by decide, rfl,
    shouldRemoveListingItem_tie_never_fires 1000 _ ⟨0, 700, 5⟩ ⟨1, 800, 5⟩
      (by decide) (by decide) rfl⟩

theorem id_lt_freshId (L : List VoteRow) : ∀ r ∈ L, r.id < freshId L := by
  induction L with
  | nil => simp
  | cons x xs ih =>
    intro r hr
    have hfs : freshId (x :: xs) = max (x.id + 1) (freshId xs) := rfl
    rcases List.mem_cons.mp hr with rfl | hr'
    · exact hfs ▸ lt_of_lt_of_le (Nat.lt_succ_self _) (le_max_left _ _)
    · exact hfs ▸ lt_of_lt_of_le (ih r hr') (le_max_right _ _)

theorem two_le_countP_of_two_mem {α : Type} (p : α → Bool) {l : List α} {a b : α}
    (hab : a ≠ b) (ha : a ∈ l) (hb : b ∈ l) (hpa : p a = true) (hpb : p b = true) :
    2 ≤ l.countP p := by
  induction l with
  | nil => simp at ha
  | cons x xs ih =>
    rw [List.countP_cons]
    rcases List.mem_cons.mp ha with rfl | ha'
    · rcases List.mem_cons.mp hb with rfl | hb'
      · exact absurd rfl hab
      · have h1 : 0 < xs.countP p := List.countP_pos_iff.mpr ⟨b, hb', hpb⟩
        rw [hpa, if_pos rfl]
        omega
    · rcases List.mem_cons.mp hb with rfl | hb'
      · have h1 : 0 < xs.countP p := List.countP_pos_iff.mpr ⟨a, ha', hpa⟩
        rw [hpb, if_pos rfl]
        omega
      · have := ih ha' hb'
        omega

theorem keyCount_append (l₁ l₂ : List VoteRow) (v : String) (p : Nat) :
    keyCount (l₁ ++ l₂) v p = keyCount l₁ v p + keyCount l₂ v p := by
  simp [keyCount]

theorem keyCount_singleton (i : Nat) (voter : String) (pid optionId : Nat) (w : ℚ)
    (v : String) (p : Nat) :
    keyCount [⟨i, voter, pid, optionId, w⟩] v p = if voter = v ∧ pid = p then 1 else 0 := by
  simp [keyCount, List.countP_cons]

theorem ledgerIds_voteLedgerUpdate (L : List VoteRow) (rowId : Nat) (voter : String)
    (pid optionId : Nat) (w : ℚ) :
    ledgerIds (voteLedgerUpdate L rowId voter pid optionId w) = ledgerIds L := by
  simp only [ledgerIds, voteLedgerUpdate, List.map_map]
  refine List.map_congr_left (fun r _ => ?_)
  by_cases hid : r.id = rowId <;> simp [hid]

theorem length_voteLedgerUpdate (L : List VoteRow) (rowId : Nat) (voter : String)
    (pid optionId : Nat) (w : ℚ) :
    (voteLedgerUpdate L rowId voter pid optionId w).length = L.length := by
  simp [voteLedgerUpdate]

theorem keyCount_voteLedgerUpdate (L : List VoteRow) (lastVote : VoteRow)
    (optionId : Nat) (w : ℚ)
    (hinj : ∀ x ∈ L, ∀ y ∈ L, x.id = y.id → x = y) (hlastmem : lastVote ∈ L)
    (v : String) (p : Nat) :
    keyCount (voteLedgerUpdate L lastVote.id lastVote.voter lastVote.proposalId optionId w) v p
      = keyCount L v p := by
  rw [keyCount, keyCount, voteLedgerUpdate, List.countP_map]
  refine List.countP_congr (fun r hr => ?_)
  by_cases hid : r.id = lastVote.id
  · have hrlast : r = lastVote := hinj r hr lastVote hlastmem hid
    simp [Function.comp, if_pos hid, hrlast]
  · simp [Function.comp, if_neg hid]

/-- C2: `createOrUpdateVote` preserves the one-row-per-(voter, proposal)
invariant of the Vote Ledger: on a well-formed ledger it leaves exactly one
row for the incoming vote's pair, carrying the incoming option and weight;
every other pair's row count is unchanged; no row is deleted; a row is added
exactly when the pair was absent and the existing row is overwritten in place
when it was present; row ids stay unique. -/
theorem createOrUpdateVote_upsert_invariant
    (L : List VoteRow) (msg : VoteMessage) (proposal : Proposal) (w : ℚ)
    (hids : (ledgerIds L).Nodup) (hkey : atMostOnePerKey L) :
    atMostOnePerKey (createOrUpdateVote L msg proposal w) ∧
    (ledgerIds (createOrUpdateVote L msg proposal w)).Nodup ∧
    keyCount (createOrUpdateVote L msg proposal w) msg.voter proposal.id = 1 ∧
    (∀ v p, ¬(v = msg.voter ∧ p = proposal.id) →
      keyCount (createOrUpdateVote L msg proposal w) v p = keyCount L v p) ∧
    L.length ≤ (createOrUpdateVote L msg proposal w).length ∧
    (findOneByVoterAndProposalId L msg.voter proposal.id = none →
      (createOrUpdateVote L msg proposal w).length = L.length + 1) ∧
    (∀ r0, findOneByVoterAndProposalId L msg.voter proposal.id = some r0 →
      (createOrUpdateVote L msg proposal w).length = L.length) ∧
    (∀ r ∈ createOrUpdateVote L msg proposal w,
      r.voter = msg.voter → r.proposalId = proposal.id →
      r.optionId = msg.optionId ∧ r.weight = w) := by
  have hinj : ∀ x ∈ L, ∀ y ∈ L, x.id = y.id → x = y :=
    List.inj_on_of_nodup_map hids
  cases hfind : findOneByVoterAndProposalId L msg.voter proposal.id with
  | none =>
    have hzero : keyCount L msg.voter proposal.id = 0 := by
      rw [keyCount, List.countP_eq_zero]
      intro r hr
      have h := List.find?_eq_none.mp hfind r hr
      simpa using h
    have hL : createOrUpdateVote L msg proposal w =
        L ++ [⟨freshId L, msg.voter, proposal.id, msg.optionId, w⟩] := by
      simp only [createOrUpdateVote, hfind, voteLedgerCreate]
    rw [hL]
    refine ⟨?_, ?_, ?_, ?_, ?_, ?_, ?_, ?_⟩
    · intro v p
      rw [keyCount_append, keyCount_singleton]
      by_cases hvp : msg.voter = v ∧ proposal.id = p
      · rcases hvp with ⟨hv, hp⟩
        subst hv; subst hp
        rw [if_pos ⟨rfl, rfl⟩, hzero]
      · rw [if_neg hvp]
        have := hkey v p
        omega
    · have hfresh : freshId L ∉ ledgerIds L := by
        intro hmem
        obtain ⟨r, hrL, hrid⟩ := List.mem_map.mp hmem
        exact Nat.lt_irrefl _ (hrid ▸ id_lt_freshId L r hrL)
      rw [ledgerIds, List.map_append]
      refine List.Nodup.append hids (by simp) ?_
      intro x hx hx'
      simp only [List.map_cons, List.map_nil, List.mem_singleton] at hx'
      subst hx'
      exact hfresh hx
    · rw [keyCount_append, keyCount_singleton, if_pos ⟨rfl, rfl⟩, hzero]
    · intro v p hne
      rw [keyCount_append, keyCount_singleton,
        if_neg (fun h => hne ⟨h.1.symm, h.2.symm⟩)]
      omega
    · simp
    · intro _
      simp
    · intro r0 h0
      exact Option.noConfusion h0
    · intro r hr hv hp
      rcases List.mem_append.mp hr with hrL | hrS
      · exfalso
        have hpos : 0 < keyCount L msg.voter proposal.id :=
          List.countP_pos_iff.mpr ⟨r, hrL, by simp [hv, hp]⟩
        omega
      · rw [List.mem_singleton] at hrS
        subst hrS
        exact ⟨rfl, rfl⟩
  | some lastVote =>
    have hlastmem : lastVote ∈ L := List.mem_of_find?_eq_some hfind
    have hlast : lastVote.voter = msg.voter ∧ lastVote.proposalId = proposal.id := by
      simpa using List.find?_some hfind
    have hL : createOrUpdateVote L msg proposal w =
        voteLedgerUpdate L lastVote.id lastVote.voter lastVote.proposalId msg.optionId w := by
      simp only [createOrUpdateVote, hfind, hlast.1, hlast.2]
    have hcount : ∀ v p,
        keyCount (createOrUpdateVote L msg proposal w) v p = keyCount L v p := by
      intro v p
      rw [hL]
      exact keyCount_voteLedgerUpdate L lastVote msg.optionId w hinj hlastmem v p
    have hone : keyCount L msg.voter proposal.id = 1 := by
      have hle := hkey msg.voter proposal.id
      have hpos : 0 < keyCount L msg.voter proposal.id :=
        List.countP_pos_iff.mpr ⟨lastVote, hlastmem, by simp [hlast.1, hlast.2]⟩
      omega
    have hlen : (createOrUpdateVote L msg proposal w).length = L.length := by
      rw [hL, length_voteLedgerUpdate]
    refine ⟨?_, ?_, ?_, ?_, ?_, ?_, ?_, ?_⟩
    · intro v p
      rw [hcount]
      exact hkey v p
    · rw [hL, ledgerIds_voteLedgerUpdate]
      exact hids
    · rw [hcount]
      exact hone
    · intro v p _
      exact hcount v p
    · omega
    · intro h0
      exact Option.noConfusion h0
    · intro r0 _
      exact hlen
    · intro r hr hv hp
      rw [hL, voteLedgerUpdate] at hr
      obtain ⟨r0, hr0L, hr0⟩ := List.mem_map.mp hr
      by_cases hid : r0.id = lastVote.id
      · rw [if_pos hid] at hr0
        subst hr0
        exact ⟨rfl, rfl⟩
      · exfalso
        rw [if_neg hid] at hr0
        subst hr0
        have hne : r0 ≠ lastVote := fun h => hid (h ▸ rfl)
        have h2 : 2 ≤ keyCount L msg.voter proposal.id := by
          refine two_le_countP_of_two_mem _ hne hr0L hlastmem ?_ ?_
          · simp [hv, hp]
          · simp [hlast.1, hlast.2]
        omega

/-- Witness for C2: the invariant theorem applied to the empty ledger. -/
theorem createOrUpdateVote_upsert_invariant_witness :
    (ledgerIds []).Nodup ∧ atMostOnePerKey [] ∧
    (atMostOnePerKey (createOrUpdateVote [] ⟨"alice", "h1", 1⟩
        ⟨1, "h1", ProposalType.ITEM_VOTE, [], none, 0⟩ 5) ∧
      (ledgerIds (createOrUpdateVote [] ⟨"alice", "h1", 1⟩
        ⟨1, "h1", ProposalType.ITEM_VOTE, [], none, 0⟩ 5)).Nodup ∧
      keyCount (createOrUpdateVote [] ⟨"alice", "h1", 1⟩
        ⟨1, "h1", ProposalType.ITEM_VOTE, [], none, 0⟩ 5) "alice" 1 = 1 ∧
      (∀ v p, ¬(v = "alice" ∧ p = 1) →
        keyCount (createOrUpdateVote [] ⟨"alice", "h1", 1⟩
          ⟨1, "h1", ProposalType.ITEM_VOTE, [], none, 0⟩ 5) v p = keyCount [] v p) ∧
      ([] : List VoteRow).length ≤ (createOrUpdateVote [] ⟨"alice", "h1", 1⟩
        ⟨1, "h1", ProposalType.ITEM_VOTE, [], none, 0⟩ 5).length ∧
      (findOneByVoterAndProposalId [] "alice" 1 = none →
        (createOrUpdateVote [] ⟨"alice", "h1", 1⟩
          ⟨1, "h1", ProposalType.ITEM_VOTE, [], none, 0⟩ 5).length
            = ([] : List VoteRow).length + 1) ∧
      (∀ r0, findOneByVoterAndProposalId [] "alice" 1 = some r0 →
        (createOrUpdateVote [] ⟨"alice", "h1", 1⟩
          ⟨1, "h1", ProposalType.ITEM_VOTE, [], none, 0⟩ 5).length
            = ([] : List VoteRow).length) ∧
      (∀ r ∈ createOrUpdateVote [] ⟨"alice", "h1", 1⟩
          ⟨1, "h1", ProposalType.ITEM_VOTE, [], none, 0⟩ 5,
        r.voter = "alice" → r.proposalId = 1 → r.optionId = 1 ∧ r.weight = 5)) :=
  ⟨List.nodup_nil, fun _ _ => Nat.zero_le 1,
    createOrUpdateVote_upsert_invariant [] ⟨"alice", "h1", 1⟩
      ⟨1, "h1", ProposalType.ITEM_VOTE, [], none, 0⟩ 5
      List.nodup_nil (fun _ _ => Nat.zero_le 1)⟩

theorem processKnownProposal_ok_processed
    (env : Env) (st : MarketState) (event : MarketplaceEvent) (vm : VoteMessage)
    (proposal : Proposal) (status : SmsgMessageStatus) (st1 : MarketState)
    (h : processKnownProposal env st event vm proposal = (.ok status, st1)) :
    status = SmsgMessageStatus.PROCESSED := by
  simp only [processKnownProposal] at h
  repeat' split at h
  all_goals simp_all

/-- C3: a vote event for a proposal hash that is not in the Proposal Store
resolves to WAITING with the state (Vote Ledger, listings, everything)
untouched. -/
theorem processVoteReceivedEvent_missing_proposal_waiting
    (env : Env) (st : MarketState) (event : MarketplaceEvent) (vm : VoteMessage)
    (hmp : event.marketplaceMessage.mpaction = some vm)
    (hvoter : vm.voter = event.smsgMessage.sender)
    (hnotfound : findOneByHash st.proposals vm.proposalHash = none) :
    processVoteReceivedEvent env st event = .ok (.WAITING, st) := by
  simp [processVoteReceivedEvent, hmp, hvoter, hnotfound]

/-- Witness for C3 on a store with no proposals. -/
theorem processVoteReceivedEvent_missing_proposal_waiting_witness :
    (⟨⟨some ⟨"alice", "h1", 1⟩⟩, ⟨"alice", 7⟩⟩ :
        MarketplaceEvent).marketplaceMessage.mpaction = some ⟨"alice", "h1", 1⟩ ∧
    (VoteMessage.mk "alice" "h1" 1).voter
      = (⟨⟨some ⟨"alice", "h1", 1⟩⟩, ⟨"alice", 7⟩⟩ : MarketplaceEvent).smsgMessage.sender ∧
    findOneByHash (⟨[], [], [], []⟩ : MarketState).proposals "h1" = none ∧
    processVoteReceivedEvent okEnv ⟨[], [], [], []⟩ ⟨⟨some ⟨"alice", "h1", 1⟩⟩, ⟨"alice", 7⟩⟩
      = .ok (.WAITING, ⟨[], [], [], []⟩) :=
  ⟨rfl, rfl, rfl,
    processVoteReceivedEvent_missing_proposal_waiting okEnv ⟨[], [], [], []⟩
      ⟨⟨some ⟨"alice", "h1", 1⟩⟩, ⟨"alice", 7⟩⟩ ⟨"alice", "h1", 1⟩ rfl rfl rfl⟩

/-- C7: a vote event whose claimed voter is one of the locally controlled
profile addresses resolves to PROCESSED and changes nothing. -/
theorem processVoteReceivedEvent_self_vote_noop
    (env : Env) (st : MarketState) (event : MarketplaceEvent) (vm : VoteMessage)
    (proposal : Proposal)
    (hmp : event.marketplaceMessage.mpaction = some vm)
    (hvoter : vm.voter = event.smsgMessage.sender)
    (hfound : findOneByHash st.proposals vm.proposalHash = some proposal)
    (hself : vm.voter ∈ st.profiles) :
    processVoteReceivedEvent env st event = .ok (.PROCESSED, st) := by
  have hself2 : event.smsgMessage.sender ∈ st.profiles := hvoter ▸ hself
  simp [processVoteReceivedEvent, hmp, hvoter, hfound, processKnownProposal, hself2]

/-- Witness for C7: "local1" votes and is a local profile. -/
theorem processVoteReceivedEvent_self_vote_noop_witness :
    (⟨⟨some ⟨"local1", "h1", 1⟩⟩, ⟨"local1", 7⟩⟩ :
        MarketplaceEvent).marketplaceMessage.mpaction = some ⟨"local1", "h1", 1⟩ ∧
    (VoteMessage.mk "local1" "h1" 1).voter
      = (⟨⟨some ⟨"local1", "h1", 1⟩⟩, ⟨"local1", 7⟩⟩ : MarketplaceEvent).smsgMessage.sender ∧
    findOneByHash exampleState.proposals "h1" = some exampleProposal ∧
    "local1" ∈ exampleState.profiles ∧
    processVoteReceivedEvent okEnv exampleState ⟨⟨some ⟨"local1", "h1", 1⟩⟩, ⟨"local1", 7⟩⟩
      = .ok (.PROCESSED, exampleState) :=
  ⟨rfl, rfl, by decide, by decide,
    processVoteReceivedEvent_self_vote_noop okEnv exampleState
      ⟨⟨some ⟨"local1", "h1", 1⟩⟩, ⟨"local1", 7⟩⟩ ⟨"local1", "h1", 1⟩ exampleProposal
      rfl rfl (by decide) (by decide)⟩

/-- C8: a zero-weight vote from a non-local voter on a known proposal with
sufficient retention is a deliberate no-op: PROCESSED and no state change. -/
theorem processVoteReceivedEvent_zero_weight_noop
    (env : Env) (st : MarketState) (event : MarketplaceEvent) (vm : VoteMessage)
    (proposal : Proposal)
    (hmp : event.marketplaceMessage.mpaction = some vm)
    (hvoter : vm.voter = event.smsgMessage.sender)
    (hfound : findOneByHash st.proposals vm.proposalHash = some proposal)
    (hnotself : vm.voter ∉ st.profiles)
    (hresults : proposal.proposalResults ≠ [])
    (hret : 1 ≤ event.smsgMessage.daysretention)
    (hweight : env.getVoteWeight vm.voter = 0) :
    processVoteReceivedEvent env st event = .ok (.PROCESSED, st) := by
  have hempty : proposal.proposalResults.isEmpty = false := by
    simp [hresults]
  have hnotself2 : event.smsgMessage.sender ∉ st.profiles := hvoter ▸ hnotself
  have hweight2 : env.getVoteWeight event.smsgMessage.sender = 0 := hvoter ▸ hweight
  simp [processVoteReceivedEvent, hmp, hvoter, hfound, processKnownProposal, hnotself2,
    hempty, hret, hweight2]

/-- Witness for C8: a weight oracle that answers 0. -/
theorem processVoteReceivedEvent_zero_weight_noop_witness :
    exampleVoteEvent.marketplaceMessage.mpaction = some ⟨"alice", "h1", 1⟩ ∧
    (VoteMessage.mk "alice" "h1" 1).voter = exampleVoteEvent.smsgMessage.sender ∧
    findOneByHash exampleState.proposals "h1" = some exampleProposal ∧
    "alice" ∉ exampleState.profiles ∧
    exampleProposal.proposalResults ≠ [] ∧
    (1 : Int) ≤ exampleVoteEvent.smsgMessage.daysretention ∧
    (Env.mk (fun _ => 0) (fun _ _ => ⟨[]⟩) false false 1000).getVoteWeight "alice" = 0 ∧
    processVoteReceivedEvent (Env.mk (fun _ => 0) (fun _ _ => ⟨[]⟩) false false 1000)
      exampleState exampleVoteEvent = .ok (.PROCESSED, exampleState) :=
  ⟨rfl, rfl, by decide, by decide, by decide, by decide, rfl,
    processVoteReceivedEvent_zero_weight_noop
      (Env.mk (fun _ => 0) (fun _ _ => ⟨[]⟩) false false 1000) exampleState
      exampleVoteEvent ⟨"alice", "h1", 1⟩ exampleProposal
      rfl rfl (by decide) (by decide) (by decide) (by decide) rfl⟩

/-- C10: a known proposal whose `ProposalResults` collection is empty makes
the handler throw internally; the final catch yields WAITING and nothing is
written. -/
theorem processVoteReceivedEvent_empty_results_waiting
    (env : Env) (st : MarketState) (event : MarketplaceEvent) (vm : VoteMessage)
    (proposal : Proposal)
    (hmp : event.marketplaceMessage.mpaction = some vm)
    (hvoter : vm.voter = event.smsgMessage.sender)
    (hfound : findOneByHash st.proposals vm.proposalHash = some proposal)
    (hnotself : vm.voter ∉ st.profiles)
    (hresults : proposal.proposalResults = []) :
    processVoteReceivedEvent env st event = .ok (.WAITING, st) := by
  have hnotself2 : event.smsgMessage.sender ∉ st.profiles := hvoter ▸ hnotself
  simp [processVoteReceivedEvent, hmp, hvoter, hfound, processKnownProposal, hnotself2,
    hresults]

/-- Witness for C10: a proposal stored with no result snapshot. -/
theorem processVoteReceivedEvent_empty_results_waiting_witness :
    exampleVoteEvent.marketplaceMessage.mpaction = some ⟨"alice", "h1", 1⟩ ∧
    (VoteMessage.mk "alice" "h1" 1).voter = exampleVoteEvent.smsgMessage.sender ∧
    findOneByHash (⟨[⟨1, "h1", ProposalType.ITEM_VOTE, [], none, 0⟩], ["local1"], [], []⟩ :
      MarketState).proposals "h1" = some ⟨1, "h1", ProposalType.ITEM_VOTE, [], none, 0⟩ ∧
    "alice" ∉ (⟨[⟨1, "h1", ProposalType.ITEM_VOTE, [], none, 0⟩], ["local1"], [], []⟩ :
      MarketState).profiles ∧
    (Proposal.mk 1 "h1" ProposalType.ITEM_VOTE [] none 0).proposalResults = [] ∧
    processVoteReceivedEvent okEnv
      ⟨[⟨1, "h1", ProposalType.ITEM_VOTE, [], none, 0⟩], ["local1"], [], []⟩
      exampleVoteEvent
      = .ok (.WAITING, ⟨[⟨1, "h1", ProposalType.ITEM_VOTE, [], none, 0⟩], ["local1"], [], []⟩) :=
  ⟨rfl, rfl, by decide, by decide, rfl,
    processVoteReceivedEvent_empty_results_waiting okEnv
      ⟨[⟨1, "h1", ProposalType.ITEM_VOTE, [], none, 0⟩], ["local1"], [], []⟩
      exampleVoteEvent ⟨"alice", "h1", 1⟩ ⟨1, "h1", ProposalType.ITEM_VOTE, [], none, 0⟩
      rfl rfl (by decide) (by decide) rfl⟩

/-- Counterexample to C5 as stated: a below-retention vote
(`daysretention = 0`) on a known proposal from a non-local voter resolves to
WAITING — not to the successful PROCESSED status the claim asserts — because
the code throws `MessageException('Missing VoteMessage')`, which the final
catch converts to WAITING. (The Vote Ledger is indeed unchanged.) -/
theorem below_retention_counterexample :
    processVoteReceivedEvent okEnv exampleState lowRetentionEvent
      = .ok (SmsgMessageStatus.WAITING, exampleState) ∧
    SmsgMessageStatus.WAITING ≠ SmsgMessageStatus.PROCESSED := by
  constructor
  · rfl
  · decide

/-- C5 as amended: a below-retention vote on a known proposal from a
non-local voter resolves to WAITING (deferred for retry, not an error and
not PROCESSED) and leaves the whole state, the Vote Ledger included,
unchanged. -/
theorem processVoteReceivedEvent_below_retention_waiting
    (env : Env) (st : MarketState) (event : MarketplaceEvent) (vm : VoteMessage)
    (proposal : Proposal)
    (hmp : event.marketplaceMessage.mpaction = some vm)
    (hvoter : vm.voter = event.smsgMessage.sender)
    (hfound : findOneByHash st.proposals vm.proposalHash = some proposal)
    (hnotself : vm.voter ∉ st.profiles)
    (hresults : proposal.proposalResults ≠ [])
    (hret : event.smsgMessage.daysretention < 1) :
    processVoteReceivedEvent env st event = .ok (.WAITING, st) := by
  have hempty : proposal.proposalResults.isEmpty = false := by
    simp [hresults]
  have hnotself2 : event.smsgMessage.sender ∉ st.profiles := hvoter ▸ hnotself
  have hret2 : ¬ (1 ≤ event.smsgMessage.daysretention) := not_le.mpr hret
  simp [processVoteReceivedEvent, hmp, hvoter, hfound, processKnownProposal, hnotself2,
    hempty, hret2]

/-- Witness for the amended C5 at the concrete fixtures. -/
theorem processVoteReceivedEvent_below_retention_waiting_witness :
    lowRetentionEvent.marketplaceMessage.mpaction = some ⟨"alice", "h1", 1⟩ ∧
    (VoteMessage.mk "alice" "h1" 1).voter = lowRetentionEvent.smsgMessage.sender ∧
    findOneByHash exampleState.proposals "h1" = some exampleProposal ∧
    "alice" ∉ exampleState.profiles ∧
    exampleProposal.proposalResults ≠ [] ∧
    lowRetentionEvent.smsgMessage.daysretention < 1 ∧
    processVoteReceivedEvent okEnv exampleState lowRetentionEvent
      = .ok (.WAITING, exampleState) :=
  ⟨rfl, rfl, by decide, by decide, by decide, by decide,
    processVoteReceivedEvent_below_retention_waiting okEnv exampleState lowRetentionEvent
      ⟨"alice", "h1", 1⟩ exampleProposal rfl rfl (by decide) (by decide) (by decide)
      (by decide)⟩

/-- Counterexample to C4 as stated: with the Vote upsert rejecting on a
known proposal, the listener records WAITING — the inner promise-chain catch
of `processVoteReceivedEvent` swallows the persistence failure before the
listener's PARSING_FAILED handler can see it. -/
theorem persistence_failure_counterexample :
    handleVoteReceivedEvent failingUpsertEnv exampleState exampleVoteEvent
      = (SmsgMessageStatus.WAITING, exampleState) ∧
    SmsgMessageStatus.WAITING ≠ SmsgMessageStatus.PARSING_FAILED := by
  constructor
  · decide
  · decide

/-- C4 as amended: a failure of the Vote upsert or of the ProposalResult
recomputation is caught by the pipeline's own final catch and reported as
WAITING; PARSING_FAILED is never reported for an event that passes the
structural and sender checks, whatever the collaborators do. -/
theorem persistence_failure_reports_waiting
    (env : Env) (st : MarketState) (event : MarketplaceEvent) (vm : VoteMessage)
    (proposal : Proposal)
    (hmp : event.marketplaceMessage.mpaction = some vm)
    (hvoter : vm.voter = event.smsgMessage.sender)
    (hfound : findOneByHash st.proposals vm.proposalHash = some proposal)
    (hnotself : vm.voter ∉ st.profiles)
    (hresults : proposal.proposalResults ≠ [])
    (hret : 1 ≤ event.smsgMessage.daysretention)
    (hw : 0 < env.getVoteWeight vm.voter) :
    (env.upsertFails = true →
      handleVoteReceivedEvent env st event = (.WAITING, st)) ∧
    (env.upsertFails = false → env.recomputeFails = true →
      (handleVoteReceivedEvent env st event).1 = .WAITING) ∧
    (∀ env2 : Env, (handleVoteReceivedEvent env2 st event).1 ≠ .PARSING_FAILED) := by
  have hempty : proposal.proposalResults.isEmpty = false := by
    simp [hresults]
  have hnotself2 : event.smsgMessage.sender ∉ st.profiles := hvoter ▸ hnotself
  have hw2 : 0 < env.getVoteWeight event.smsgMessage.sender := hvoter ▸ hw
  refine ⟨?_, ?_, ?_⟩
  · intro hfail
    simp [handleVoteReceivedEvent, processVoteReceivedEvent, hmp, hvoter, hfound,
      processKnownProposal, hnotself2, hempty, hret, hw2, hfail]
  · intro hok hfail
    simp [handleVoteReceivedEvent, processVoteReceivedEvent, hmp, hvoter, hfound,
      processKnownProposal, hnotself2, hempty, hret, hw2, hok, hfail]
  · intro env2
    simp only [handleVoteReceivedEvent, processVoteReceivedEvent, hmp]
    rw [if_neg (by simp [hvoter])]
    cases hfind2 : findOneByHash st.proposals vm.proposalHash with
    | none => simp
    | some prop2 =>
      rcases hpk : processKnownProposal env2 st event vm prop2 with ⟨res, st1⟩
      cases res with
      | ok status =>
        have hst : status = SmsgMessageStatus.PROCESSED :=
          processKnownProposal_ok_processed env2 st event vm prop2 status st1 hpk
        simp [hpk, hst]
      | error e => simp [hpk]

/-- Witness for the amended C4 at the concrete fixtures. -/
theorem persistence_failure_reports_waiting_witness :
    exampleVoteEvent.marketplaceMessage.mpaction = some ⟨"alice", "h1", 1⟩ ∧
    (VoteMessage.mk "alice" "h1" 1).voter = exampleVoteEvent.smsgMessage.sender ∧
    findOneByHash exampleState.proposals "h1" = some exampleProposal ∧
    "alice" ∉ exampleState.profiles ∧
    exampleProposal.proposalResults ≠ [] ∧
    (1 : Int) ≤ exampleVoteEvent.smsgMessage.daysretention ∧
    0 < failingUpsertEnv.getVoteWeight "alice" ∧
    ((failingUpsertEnv.upsertFails = true →
      handleVoteReceivedEvent failingUpsertEnv exampleState exampleVoteEvent
        = (.WAITING, exampleState)) ∧
    (failingUpsertEnv.upsertFails = false → failingUpsertEnv.recomputeFails = true →
      (handleVoteReceivedEvent failingUpsertEnv exampleState exampleVoteEvent).1
        = .WAITING) ∧
    (∀ env2 : Env,
      (handleVoteReceivedEvent env2 exampleState exampleVoteEvent).1 ≠ .PARSING_FAILED)) :=
  ⟨rfl, rfl, by decide, by decide, by decide, by decide, by norm_num [failingUpsertEnv],
    persistence_failure_reports_waiting failingUpsertEnv exampleState exampleVoteEvent
      ⟨"alice", "h1", 1⟩ exampleProposal rfl rfl (by decide) (by decide) (by decide)
      (by decide) (by norm_num [failingUpsertEnv])⟩

/-- C9: `send` dispatches with a retention window of
`ceil((expiredAt - now) / 86400000)` days (the division chain by 1000, 60,
60, 24 equals one division by 86 400 000 ms/day) and leaves the Vote Ledger
untouched. -/
theorem send_retention_ceil_days_and_no_vote_row
    (proposal : Proposal) (proposalOption : ProposalOption)
    (senderAddress marketAddress : String) (st : MarketState) (now : Int)
    (_hnotexpired : now < proposal.expiredAt) :
    (send proposal proposalOption senderAddress marketAddress st now).1.daysRetention
        = Int.ceil (((proposal.expiredAt : ℚ) - (now : ℚ)) / 86400000) ∧
    (send proposal proposalOption senderAddress marketAddress st now).2 = st := by
  constructor
  · simp only [send]
    congr 1
    rw [div_div, div_div, div_div]
    norm_num
  · rfl

/-- Witness for C9: one millisecond past a full day remains, so two days of
retention are requested. -/
theorem send_retention_ceil_days_and_no_vote_row_witness :
    (0 : Int) < (Proposal.mk 1 "h1" ProposalType.ITEM_VOTE [] none 86400001).expiredAt ∧
    ((send ⟨1, "h1", ProposalType.ITEM_VOTE, [], none, 86400001⟩ ⟨1⟩ "local1" "market1"
        exampleState 0).1.daysRetention
      = Int.ceil ((((86400001 : Int) : ℚ) - ((0 : Int) : ℚ)) / 86400000) ∧
    (send ⟨1, "h1", ProposalType.ITEM_VOTE, [], none, 86400001⟩ ⟨1⟩ "local1" "market1"
        exampleState 0).2 = exampleState) :=
  ⟨by decide,
    send_retention_ceil_days_and_no_vote_row
      ⟨1, "h1", ProposalType.ITEM_VOTE, [], none, 86400001⟩ ⟨1⟩ "local1" "market1"
      exampleState 0 (by decide)⟩
